import Mathlib

/-!
Verification of the `web-scrapper` extraction-and-analysis pipeline
(`src/unnamed/part_001`, the `/api/scrape` route).

The TypeScript source is shallowly embedded: each pure helper of the route
(`normalizeUrl`, `isValidImageUrl`, `analyzeSentiment`,
`calculateReadabilityScore`, `analyzeKeywords`, `analyzeSEO`, and the
persistence tail of `POST`) becomes an executable Lean definition over
`String`, `List` and `ℚ`.  JavaScript regexp splitting, `startsWith`,
`endsWith`, `toLowerCase` and `Math.round` are modelled by the `js*`
definitions below; the WHATWG `URL` class — an external platform library,
not repository code — is abstracted as a parameter (`parseUrl`,
`resolveRel`), where `none` models a thrown `TypeError`.
-/

namespace WebScraper

/-- Character class of the JS regexp `\s` (whitespace), restricted to the
ASCII whitespace characters: space, tab, line feed, carriage return,
vertical tab and form feed. -/
def jsWhitespaceChar (c : Char) : Bool :=
  c = ' ' || c = '\t' || c = '\n' || c = '\r' || c = Char.ofNat 11 || c = Char.ofNat 12

/-- Character class of the JS regexp `\w`: `[A-Za-z0-9_]`. -/
def jsWordChar (c : Char) : Bool :=
  ('a' ≤ c && c ≤ 'z') || ('A' ≤ c && c ≤ 'Z') || ('0' ≤ c && c ≤ '9') || c = '_'

/-- Character class of the JS regexp `\W`: the complement of `\w`. -/
def jsNonWordChar (c : Char) : Bool := !jsWordChar c

/-- Character class of the JS regexp `[.!?]` used as sentence separator. -/
def sentenceSepChar (c : Char) : Bool := c = '.' || c = '!' || c = '?'

/-- Character class of the JS regexp `[^aeiouy]` over lowercased text,
used by the syllable heuristic of `calculateReadabilityScore`. -/
def nonVowelChar (c : Char) : Bool :=
  !(c = 'a' || c = 'e' || c = 'i' || c = 'o' || c = 'u' || c = 'y')

/-- Worker for `jsSplit`.  `cur` is the reversed token being accumulated and
`inSep` records whether the previous character belonged to a separator run
(so that a maximal run produces a single boundary). -/
def splitRunsAux (sep : Char → Bool) : List Char → List Char → Bool → List (List Char)
  | [], cur, _ => [cur.reverse]
  | c :: cs, cur, inSep =>
    if sep c then
      if inSep then splitRunsAux sep cs [] true
      else cur.reverse :: splitRunsAux sep cs [] true
    else splitRunsAux sep cs (c :: cur) false

/-- JS `String.prototype.split` on a regexp `X+` (one or more characters of
class `sep`): the string is cut at every maximal run of separator
characters, keeping the possibly empty boundary tokens, exactly as in JS:
`"".split(/\s+/)` is `[""]`, `"a!"` split on `[.!?]+` is `["a", ""]`. -/
def jsSplit (sep : Char → Bool) (s : String) : List String :=
  (splitRunsAux sep s.data [] false).map fun cs => ⟨cs⟩

/-- JS `s.startsWith(p)`. -/
def jsStartsWith (s p : String) : Bool := p.data.isPrefixOf s.data

/-- JS `s.endsWith(p)`. -/
def jsEndsWith (s p : String) : Bool := p.data.reverse.isPrefixOf s.data.reverse

/-- JS `s.toLowerCase()` on ASCII text: lowercases `A`–`Z` characterwise. -/
def jsToLower (s : String) : String := ⟨s.data.map Char.toLower⟩

/-- JS `Math.round`: nearest integer, halves rounded towards `+∞`. -/
def jsRound (q : ℚ) : ℤ := ⌊q + 1 / 2⌋

/-- Result of the WHATWG `new URL(u)` constructor, restricted to the three
components the scraper reads.  `protocol` includes the trailing colon
(`"https:"`), as in the URL API. -/
structure UrlParts where
  protocol : String
  host : String
  pathname : String
deriving DecidableEq

/-- `normalizeUrl` from `src/unnamed/part_001` lines 20–35.  `parseUrl`
models `new URL(baseUrl)` and `resolveRel` models `new URL(url, baseUrl).href`;
`none` models a thrown `TypeError`, which the source catches by returning
the input `url` unchanged. -/
def normalizeUrl (parseUrl : String → Option UrlParts)
    (resolveRel : String → String → Option String) (baseUrl url : String) : String :=
  if url = "" then ""
  else if jsStartsWith url "data:" then url
  else if jsStartsWith url "http://" || jsStartsWith url "https://" then url
  else if jsStartsWith url "//" then "https:" ++ url
  else if jsStartsWith url "/" then
    match parseUrl baseUrl with
    | some u => u.protocol ++ "//" ++ u.host ++ url
    | none => url
  else
    match resolveRel baseUrl url with
    | some href => href
    | none => url

/-- `isValidImageUrl` from `src/unnamed/part_001` lines 37–52.  `parseUrl`
models `new URL(url)`; `none` models a thrown `TypeError`, caught by the
source and turned into `false`. -/
def isValidImageUrl (parseUrl : String → Option UrlParts) (url : String) : Bool :=
  if url = "" then false
  else if jsStartsWith url "data:image/" then true
  else
    match parseUrl url with
    | some u =>
      let path := jsToLower u.pathname
      jsEndsWith path ".jpg" || jsEndsWith path ".jpeg" || jsEndsWith path ".png" ||
        jsEndsWith path ".gif" || jsEndsWith path ".webp" || jsEndsWith path ".svg"
    | none => false

/-- A toy instance of the `parseUrl` parameter, sufficient for concrete
test inputs; everything else behaves like a parse failure. -/
def toyParseUrl : String → Option UrlParts := fun s =>
  if s = "https://example.com/file.pdf" then some ⟨"https:", "example.com", "/file.pdf"⟩
  else if s = "http://example.com" then some ⟨"http:", "example.com", "/"⟩
  else none

/-- A toy instance of the `resolveRel` parameter that always fails. -/
def toyResolveRel : String → String → Option String := fun _ _ => none

lemma ne_nil_of_isPrefixOf_cons {a : Char} {p s : List Char}
    (h : (a :: p).isPrefixOf s = true) : s ≠ [] := by
  intro hs
  subst hs
  simp [List.isPrefixOf] at h

/-- If `p` is a prefix of `s` and neither of `p`, `q` is a prefix of the
other, then `q` is not a prefix of `s`. -/
lemma isPrefixOf_false_of_isPrefixOf {s p q : List Char}
    (h : p.isPrefixOf s = true) (hpq : p.isPrefixOf q = false)
    (hqp : q.isPrefixOf p = false) : q.isPrefixOf s = false := by
  by_contra hq
  rw [Bool.not_eq_false] at hq
  have h1 : p <+: s := List.isPrefixOf_iff_prefix.mp h
  have h2 : q <+: s := List.isPrefixOf_iff_prefix.mp hq
  rcases List.prefix_or_prefix_of_prefix h1 h2 with h3 | h3
  · rw [← List.isPrefixOf_iff_prefix] at h3
    rw [h3] at hpq
    exact Bool.true_eq_false.mp hpq
  · rw [← List.isPrefixOf_iff_prefix] at h3
    rw [h3] at hqp
    exact Bool.true_eq_false.mp hqp

lemma url_ne_empty {url p : String} (hp : p ≠ "") (h : jsStartsWith url p = true) :
    ¬ url = "" := by
  intro he
  subst he
  rw [jsStartsWith] at h
  rcases hd : p.data with _ | ⟨a, t⟩
  · exact hp (by cases p; simp_all)
  · rw [hd] at h
    simp [List.isPrefixOf] at h

/-- C10 — `normalizeUrl` is the identity on already-absolute `http(s)://`
input, for every model of the URL library and every base URL. -/
theorem normalizeUrl_absolute (parseUrl : String → Option UrlParts)
    (resolveRel : String → String → Option String) (baseUrl url : String)
    (h : jsStartsWith url "http://" = true ∨ jsStartsWith url "https://" = true) :
    normalizeUrl parseUrl resolveRel baseUrl url = url := by
  have hne : ¬ url = "" := by
    rcases h with h | h
    · exact url_ne_empty (by decide) h
    · exact url_ne_empty (by decide) h
  have hdata : jsStartsWith url "data:" = false := by
    rcases h with h | h
    · exact isPrefixOf_false_of_isPrefixOf h (by decide) (by decide)
    · exact isPrefixOf_false_of_isPrefixOf h (by decide) (by decide)
  have hor : (jsStartsWith url "http://" || jsStartsWith url "https://") = true := by
    rcases h with h | h
    · simp [h]
    · simp [h]
  rw [normalizeUrl, if_neg hne, hdata]
  simp only [Bool.false_eq_true, if_false, hor, if_true]

/-- C10 witness: the theorem applied to a concrete absolute URL. -/
theorem normalizeUrl_absolute_witness :
    (jsStartsWith "https://a.example/c" "http://" = true ∨
      jsStartsWith "https://a.example/c" "https://" = true) ∧
    normalizeUrl toyParseUrl toyResolveRel "http://example.com" "https://a.example/c" =
      "https://a.example/c" :=
  ⟨Or.inr (by decide),
    normalizeUrl_absolute toyParseUrl toyResolveRel "http://example.com" "https://a.example/c"
      (Or.inr (by decide))⟩

/-- C4 counterexample: with base URL `http://example.com` (scheme `http`),
the protocol-relative input `//cdn.example.com/a.png` is rewritten with the
fixed scheme `https`, not with the scheme of the base URL, so the result
differs from `{scheme(baseUrl)}:{url}`. -/
theorem normalizeUrl_protocol_relative_counterexample :
    normalizeUrl toyParseUrl toyResolveRel "http://example.com" "//cdn.example.com/a.png" =
      "https://cdn.example.com/a.png" ∧
    "https://cdn.example.com/a.png" ≠ "http://cdn.example.com/a.png" := by
  constructor
  · decide
  · decide

/-- C4 amended — for every protocol-relative input URL (one starting with
`//`) and every base URL, `normalizeUrl` prefixes the input with the fixed
scheme `https`, regardless of the scheme of the base URL. -/
theorem normalizeUrl_protocol_relative (parseUrl : String → Option UrlParts)
    (resolveRel : String → String → Option String) (baseUrl url : String)
    (h : jsStartsWith url "//" = true) :
    normalizeUrl parseUrl resolveRel baseUrl url = "https:" ++ url := by
  have hne : ¬ url = "" := url_ne_empty (by decide) h
  have hdata : jsStartsWith url "data:" = false :=
    isPrefixOf_false_of_isPrefixOf h (by decide) (by decide)
  have hhttp : jsStartsWith url "http://" = false :=
    isPrefixOf_false_of_isPrefixOf h (by decide) (by decide)
  have hhttps : jsStartsWith url "https://" = false :=
    isPrefixOf_false_of_isPrefixOf h (by decide) (by decide)
  rw [normalizeUrl, if_neg hne, hdata, hhttp, hhttps]
  simp only [Bool.false_eq_true, if_false, Bool.or_self, h, if_true]

/-- C4 amended witness: the theorem applied to a concrete protocol-relative
URL under an `http` base. -/
theorem normalizeUrl_protocol_relative_witness :
    jsStartsWith "//host/x" "//" = true ∧
    normalizeUrl toyParseUrl toyResolveRel "http://example.com" "//host/x" =
      "https:" ++ "//host/x" :=
  ⟨by decide,
    normalizeUrl_protocol_relative toyParseUrl toyResolveRel "http://example.com" "//host/x"
      (by decide)⟩

/-- C9 — `isValidImageUrl` accepts exactly the `data:image/` URLs and the
parseable URLs whose lowercased path ends in one of the six allowed image
extensions; in particular it accepts `data:image/png;base64,AAAA` and
rejects `https://example.com/file.pdf`.  The hypothesis pins down the one
fact used about the URL library: the empty string does not parse. -/
theorem isValidImageUrl_spec (parseUrl : String → Option UrlParts)
    (hempty : parseUrl "" = none) (url : String) :
    (isValidImageUrl parseUrl url = true ↔
      (jsStartsWith url "data:image/" = true ∨
        ∃ u, parseUrl url = some u ∧
          (jsEndsWith (jsToLower u.pathname) ".jpg" || jsEndsWith (jsToLower u.pathname) ".jpeg" ||
           jsEndsWith (jsToLower u.pathname) ".png" || jsEndsWith (jsToLower u.pathname) ".gif" ||
           jsEndsWith (jsToLower u.pathname) ".webp" ||
           jsEndsWith (jsToLower u.pathname) ".svg") = true)) ∧
    isValidImageUrl toyParseUrl "data:image/png;base64,AAAA" = true ∧
    isValidImageUrl toyParseUrl "https://example.com/file.pdf" = false := by
  refine ⟨?_, by decide, by decide⟩
  by_cases he : url = ""
  · subst he
    rw [isValidImageUrl]
    simp [hempty]
    decide
  · rw [isValidImageUrl, if_neg he]
    by_cases hd : jsStartsWith url "data:image/" = true
    · simp [hd]
    · rw [Bool.not_eq_true] at hd
      rw [hd]
      simp only [Bool.false_eq_true, if_false, false_or]
      rcases hu : parseUrl url with _ | u
      · simp
      · simp

/-- C9 witness: the specification applied to the concrete `data:` example
with the toy URL parser. -/
theorem isValidImageUrl_spec_witness :
    toyParseUrl "" = none ∧
    ((isValidImageUrl toyParseUrl "data:image/png;base64,AAAA" = true ↔
      (jsStartsWith "data:image/png;base64,AAAA" "data:image/" = true ∨
        ∃ u, toyParseUrl "data:image/png;base64,AAAA" = some u ∧
          (jsEndsWith (jsToLower u.pathname) ".jpg" || jsEndsWith (jsToLower u.pathname) ".jpeg" ||
           jsEndsWith (jsToLower u.pathname) ".png" || jsEndsWith (jsToLower u.pathname) ".gif" ||
           jsEndsWith (jsToLower u.pathname) ".webp" ||
           jsEndsWith (jsToLower u.pathname) ".svg") = true)) ∧
     isValidImageUrl toyParseUrl "data:image/png;base64,AAAA" = true ∧
     isValidImageUrl toyParseUrl "https://example.com/file.pdf" = false) :=
  ⟨by decide, isValidImageUrl_spec toyParseUrl (by decide) "data:image/png;base64,AAAA"⟩

/-- Return type of `analyzeSentiment`. -/
structure SentimentResult where
  score : ℚ
  comparative : ℚ
  positive : List String
  negative : List String
deriving DecidableEq

/-- The fixed positive lexicon of `analyzeSentiment` (line 61). -/
def positiveLexicon : List String := ["good", "great", "awesome", "excellent", "happy", "best"]

/-- The fixed negative lexicon of `analyzeSentiment` (line 62). -/
def negativeLexicon : List String := ["bad", "poor", "terrible", "worst", "hate", "awful"]

/-- `analyzeSentiment` from `src/unnamed/part_001` lines 60–75. -/
def analyzeSentiment (text : String) : SentimentResult :=
  let words := jsSplit jsWhitespaceChar (jsToLower text)
  let positiveWords := words.filter fun w => positiveLexicon.contains w
  let negativeWords := words.filter fun w => negativeLexicon.contains w
  let score : ℚ :=
    if 0 < words.length then
      ((positiveWords.length : ℚ) - (negativeWords.length : ℚ)) / (words.length : ℚ)
    else 0
  ⟨score,
    if 0 < words.length then score / (words.length : ℚ) else 0,
    positiveWords,
    negativeWords⟩

lemma filter_contains_eq (lex ws : List String) :
    ws.filter (fun w => lex.contains w) = ws.filter (fun w => decide (w ∈ lex)) :=
  List.filter_congr fun w _ => List.elem_eq_mem w lex

lemma if_pos_length_swap (n : ℕ) (x : ℚ) :
    (if 0 < n then x else 0) = (if n = 0 then 0 else x) := by
  by_cases h : n = 0
  · simp [h]
  · simp [h, Nat.pos_of_ne_zero h]

lemma analyzeSentiment_positive_eq (text : String) :
    (analyzeSentiment text).positive =
      (jsSplit jsWhitespaceChar (jsToLower text)).filter (fun w => decide (w ∈ positiveLexicon)) :=
  filter_contains_eq positiveLexicon (jsSplit jsWhitespaceChar (jsToLower text))

lemma analyzeSentiment_negative_eq (text : String) :
    (analyzeSentiment text).negative =
      (jsSplit jsWhitespaceChar (jsToLower text)).filter (fun w => decide (w ∈ negativeLexicon)) :=
  filter_contains_eq negativeLexicon (jsSplit jsWhitespaceChar (jsToLower text))

lemma analyzeSentiment_score_eq (text : String) :
    (analyzeSentiment text).score =
      (if (jsSplit jsWhitespaceChar (jsToLower text)).length = 0 then 0 else
        (((analyzeSentiment text).positive.length : ℚ) -
            ((analyzeSentiment text).negative.length : ℚ)) /
          ((jsSplit jsWhitespaceChar (jsToLower text)).length : ℚ)) :=
  if_pos_length_swap (jsSplit jsWhitespaceChar (jsToLower text)).length _

lemma analyzeSentiment_comparative_eq (text : String) :
    (analyzeSentiment text).comparative =
      (if (jsSplit jsWhitespaceChar (jsToLower text)).length = 0 then 0 else
        (analyzeSentiment text).score /
          ((jsSplit jsWhitespaceChar (jsToLower text)).length : ℚ)) :=
  if_pos_length_swap (jsSplit jsWhitespaceChar (jsToLower text)).length _

/-- C6 — `analyzeSentiment` lowercases, splits on whitespace, scores
`(positiveCount − negativeCount) / totalWords` (0 when there are no
words), sets `comparative = score / totalWords`, and returns the literal
matched tokens with duplicates; in particular `"good good bad"` yields
score `1/3`, positive `["good", "good"]` and negative `["bad"]`. -/
theorem analyzeSentiment_spec (text : String) :
    ((analyzeSentiment text).positive =
        (jsSplit jsWhitespaceChar (jsToLower text)).filter (fun w => decide (w ∈ positiveLexicon)) ∧
      (analyzeSentiment text).negative =
        (jsSplit jsWhitespaceChar (jsToLower text)).filter (fun w => decide (w ∈ negativeLexicon)) ∧
      (analyzeSentiment text).score =
        (if (jsSplit jsWhitespaceChar (jsToLower text)).length = 0 then 0 else
          (((analyzeSentiment text).positive.length : ℚ) -
              ((analyzeSentiment text).negative.length : ℚ)) /
            ((jsSplit jsWhitespaceChar (jsToLower text)).length : ℚ)) ∧
      (analyzeSentiment text).comparative =
        (if (jsSplit jsWhitespaceChar (jsToLower text)).length = 0 then 0 else
          (analyzeSentiment text).score /
            ((jsSplit jsWhitespaceChar (jsToLower text)).length : ℚ))) ∧
    (analyzeSentiment "good good bad").score = 1 / 3 ∧
    (analyzeSentiment "good good bad").comparative = 1 / 9 ∧
    (analyzeSentiment "good good bad").positive = ["good", "good"] ∧
    (analyzeSentiment "good good bad").negative = ["bad"] := by
  have hw : jsSplit jsWhitespaceChar (jsToLower "good good bad") = ["good", "good", "bad"] := by
    decide
  have hp : (analyzeSentiment "good good bad").positive = ["good", "good"] := by decide
  have hn : (analyzeSentiment "good good bad").negative = ["bad"] := by decide
  have hs : (analyzeSentiment "good good bad").score = 1 / 3 := by
    rw [analyzeSentiment_score_eq, hw, hp, hn]
    norm_num
  have hc : (analyzeSentiment "good good bad").comparative = 1 / 9 := by
    rw [analyzeSentiment_comparative_eq, hw, hs]
    norm_num
  exact ⟨⟨analyzeSentiment_positive_eq text, analyzeSentiment_negative_eq text,
    analyzeSentiment_score_eq text, analyzeSentiment_comparative_eq text⟩, hs, hc, hp, hn⟩

/-- `calculateReadabilityScore` from `src/unnamed/part_001` lines 77–85:
an approximate Flesch Reading Ease score clamped to `[0, 100]`. -/
def calculateReadabilityScore (text : String) : ℚ :=
  let sentences := jsSplit sentenceSepChar text
  let words := jsSplit jsWhitespaceChar text
  let syllables := (jsSplit nonVowelChar (jsToLower text)).filter fun s => s != ""
  let score : ℚ := 206.835 - 1.015 * ((words.length : ℚ) / (sentences.length : ℚ))
      - 84.6 * ((syllables.length : ℚ) / (words.length : ℚ))
  max 0 (min 100 score)

lemma splitRunsAux_length_pos (sep : Char → Bool) :
    ∀ (l cur : List Char) (b : Bool), 0 < (splitRunsAux sep l cur b).length := by
  intro l
  induction l with
  | nil =>
    intro cur b
    simp [splitRunsAux]
  | cons c cs ih =>
    intro cur b
    rw [splitRunsAux]
    split
    · split
      · exact ih [] true
      · simp
    · exact ih (c :: cur) false

lemma jsSplit_length_pos (sep : Char → Bool) (s : String) : 0 < (jsSplit sep s).length := by
  rw [jsSplit, List.length_map]
  exact splitRunsAux_length_pos sep s.data [] false

/-- C7 — for every input text the sentence and word token lists of
`calculateReadabilityScore` are nonempty (so neither division is by zero)
and the clamped result lies in `[0, 100]`: no NaN or Infinity can arise. -/
theorem calculateReadabilityScore_safe (text : String) :
    (jsSplit sentenceSepChar text).length ≠ 0 ∧
    (jsSplit jsWhitespaceChar text).length ≠ 0 ∧
    0 ≤ calculateReadabilityScore text ∧ calculateReadabilityScore text ≤ 100 := by
  refine ⟨Nat.pos_iff_ne_zero.mp (jsSplit_length_pos _ _),
    Nat.pos_iff_ne_zero.mp (jsSplit_length_pos _ _), ?_, ?_⟩
  · exact le_max_left 0 _
  · exact max_le (by norm_num) (min_le_left _ _)

/-- One entry of `topKeywords` in `analyzeKeywords`. -/
structure KeywordEntry where
  keyword : String
  count : ℕ
  density : ℚ
deriving DecidableEq

/-- Return type of `analyzeKeywords`.  The JS object `frequencies` has
string keys and is modelled as an association list in insertion order of
the keys; the enumeration order `Object.entries` actually produces
(integer-like keys first, in ascending numeric order) is applied by
`jsObjectEntriesOrder` at the point where the object is enumerated. -/
structure KeywordAnalysis where
  keywordDensity : List (String × ℕ)
  topKeywords : List KeywordEntry
deriving DecidableEq

/-- `frequencies[word] = (frequencies[word] || 0) + 1` on the association
list model: bump the existing binding or append a new one. -/
def bumpFreq : List (String × ℕ) → String → List (String × ℕ)
  | [], w => [(w, 1)]
  | (k, c) :: rest, w => if k = w then (k, c + 1) :: rest else (k, c) :: bumpFreq rest w

/-- The `words.forEach` loop of `analyzeKeywords` building `frequencies`. -/
def buildFrequencies (ws : List String) : List (String × ℕ) := ws.foldl bumpFreq []

/-- Numeric value of a decimal digit string, most significant digit
first. -/
def decimalValue (s : String) : ℕ := s.data.foldl (fun n c => 10 * n + (c.toNat - 48)) 0

/-- The ECMAScript array-index test for a property key: `some n` when `s`
is the canonical decimal representation of `n` (digits only, no leading
zero except for `"0"` itself) and `n < 2^32 − 1`; `none` for every other
key.  `[[OwnPropertyKeys]]` enumerates exactly these keys first. -/
def jsArrayIndexKey (s : String) : Option ℕ :=
  if s ≠ "" ∧ s.data.all Char.isDigit = true ∧ (s = "0" ∨ s.data.head? ≠ some '0') ∧
      decimalValue s < 2 ^ 32 - 1
  then some (decimalValue s) else none

/-- One insertion step of the ascending sort of array-index entries by
their numeric key value. -/
def insertByIndexAsc (x : ℕ × String × ℕ) : List (ℕ × String × ℕ) → List (ℕ × String × ℕ)
  | [] => [x]
  | y :: ys => if x.1 ≤ y.1 then x :: y :: ys else y :: insertByIndexAsc x ys

/-- Ascending sort of array-index entries by numeric key value (the keys
of an object are distinct, so ties cannot arise). -/
def sortByIndexAsc : List (ℕ × String × ℕ) → List (ℕ × String × ℕ)
  | [] => []
  | x :: xs => insertByIndexAsc x (sortByIndexAsc xs)

/-- The ECMAScript `Object.entries` enumeration order over the
association-list model of an object with string keys: entries whose key is
a canonical array index come first, in ascending numeric order of the key;
the remaining entries follow in insertion order. -/
def jsObjectEntriesOrder (l : List (String × ℕ)) : List (String × ℕ) :=
  let numeric := l.filterMap fun kc =>
    match jsArrayIndexKey kc.1 with
    | some n => some (n, kc)
    | none => none
  let plain := l.filter fun kc => (jsArrayIndexKey kc.1).isNone
  (sortByIndexAsc numeric).map (fun nkc => nkc.2) ++ plain

/-- One insertion step of the stable descending-by-count sort: the new
element is placed before the first element whose count is not larger. -/
def insertByCountDesc (x : String × ℕ) : List (String × ℕ) → List (String × ℕ)
  | [] => [x]
  | y :: ys => if y.2 ≤ x.2 then x :: y :: ys else y :: insertByCountDesc x ys

/-- `Object.entries(frequencies).sort(([, a], [, b]) => b - a)`: a stable
(ES2019 `Array.prototype.sort`) descending sort on the count, modelled by
stable insertion sort, which computes the same list as any stable sort. -/
def sortByCountDesc : List (String × ℕ) → List (String × ℕ)
  | [] => []
  | x :: xs => insertByCountDesc x (sortByCountDesc xs)

/-- The qualifying tokens of `analyzeKeywords` (line 88): lowercase, split
on `\W+`, keep tokens longer than 3 characters. -/
def keywordTokens (text : String) : List String :=
  (jsSplit jsNonWordChar (jsToLower text)).filter fun w => decide (3 < w.length)

/-- `analyzeKeywords` from `src/unnamed/part_001` lines 87–109.
`Object.entries(frequencies)` enumerates the object in the
`jsObjectEntriesOrder` key order before the stable sort is applied. -/
def analyzeKeywords (text : String) : KeywordAnalysis :=
  let words := keywordTokens text
  let wordCount := words.length
  let frequencies := buildFrequencies words
  ⟨frequencies,
    ((sortByCountDesc (jsObjectEntriesOrder frequencies)).take 10).map fun kc =>
      ⟨kc.1, kc.2, ((kc.2 : ℚ) / (wordCount : ℚ)) * 100⟩⟩

lemma mem_insertByCountDesc {x y : String × ℕ} {l : List (String × ℕ)} :
    y ∈ insertByCountDesc x l ↔ y = x ∨ y ∈ l := by
  induction l with
  | nil => simp [insertByCountDesc]
  | cons a t ih =>
    rw [insertByCountDesc]
    split
    · simp [List.mem_cons]
    · simp only [List.mem_cons, ih]
      tauto

lemma pairwise_insertByCountDesc {x : String × ℕ} {l : List (String × ℕ)}
    (h : l.Pairwise fun a b => b.2 ≤ a.2) :
    (insertByCountDesc x l).Pairwise fun a b => b.2 ≤ a.2 := by
  induction l with
  | nil => simp [insertByCountDesc]
  | cons a t ih =>
    rw [List.pairwise_cons] at h
    obtain ⟨ha, ht⟩ := h
    rw [insertByCountDesc]
    split
    next hax =>
      refine List.pairwise_cons.mpr ⟨?_, List.pairwise_cons.mpr ⟨ha, ht⟩⟩
      intro z hz
      rcases List.mem_cons.mp hz with rfl | hz
      · exact hax
      · exact le_trans (ha z hz) hax
    next hax =>
      refine List.pairwise_cons.mpr ⟨?_, ih ht⟩
      intro z hz
      rcases mem_insertByCountDesc.mp hz with rfl | hz
      · exact Nat.le_of_lt (Nat.lt_of_not_le hax)
      · exact ha z hz

lemma pairwise_sortByCountDesc (l : List (String × ℕ)) :
    (sortByCountDesc l).Pairwise fun a b => b.2 ≤ a.2 := by
  induction l with
  | nil => simp [sortByCountDesc]
  | cons a t ih =>
    rw [sortByCountDesc]
    exact pairwise_insertByCountDesc ih

lemma filter_insertByCountDesc (x : String × ℕ) (l : List (String × ℕ)) (c : ℕ) :
    (insertByCountDesc x l).filter (fun kc => kc.2 == c) =
      if x.2 = c then x :: l.filter (fun kc => kc.2 == c)
      else l.filter (fun kc => kc.2 == c) := by
  induction l with
  | nil =>
    by_cases h : x.2 = c <;> simp [insertByCountDesc, List.filter_cons, h]
  | cons a t ih =>
    rw [insertByCountDesc]
    split
    next hax =>
      by_cases h : x.2 = c <;> simp [List.filter_cons, h]
    next hax =>
      by_cases h : x.2 = c
      · have hac : ¬ a.2 = c := by omega
        rw [List.filter_cons, List.filter_cons]
        simp [hac, ih, h]
      · rw [List.filter_cons, List.filter_cons]
        by_cases hac : a.2 = c <;> simp [hac, ih, h]

/-- Stability of the sort: the entries holding any fixed count `c` appear
in the sorted list exactly as they appear in the input list. -/
lemma filter_sortByCountDesc (l : List (String × ℕ)) (c : ℕ) :
    (sortByCountDesc l).filter (fun kc => kc.2 == c) = l.filter (fun kc => kc.2 == c) := by
  induction l with
  | nil => rfl
  | cons a t ih =>
    rw [sortByCountDesc, filter_insertByCountDesc, List.filter_cons]
    by_cases h : a.2 = c <;> simp [h, ih]

/-- C8 counterexample: in `"zebra zebra 2024 2024"` both qualifying tokens
occur twice and `zebra` is seen first, but `Object.entries` enumerates the
integer-like key `2024` before the string key `zebra`, so the stable
descending sort returns the tie as `["2024", "zebra"]` — not in first-seen
insertion order as the claim states. -/
theorem analyzeKeywords_counterexample :
    ((analyzeKeywords "zebra zebra 2024 2024").topKeywords.map fun e => (e.keyword, e.count)) =
      [("2024", 2), ("zebra", 2)] ∧
    keywordTokens "zebra zebra 2024 2024" = ["zebra", "zebra", "2024", "2024"] ∧
    ("2024" : String) ≠ "zebra" := by
  refine ⟨by decide, by decide, by decide⟩

/-- C8 amended — `analyzeKeywords` returns at most 10 top keywords, sorted
by descending count; entries of equal count keep the `Object.entries`
enumeration order of the frequency object — integer-like keys first in
ascending numeric order, then the remaining keys in first-seen insertion
order — (stated as: for each count `c`, the tied entries form a sublist of
the enumeration-ordered frequency list); and each density is
`100 × count / totalFilteredWords` over the lowercased tokens of length > 3
obtained by splitting on `\W+` runs. -/
theorem analyzeKeywords_amended (text : String) :
    (analyzeKeywords text).topKeywords.length ≤ 10 ∧
    (analyzeKeywords text).topKeywords.Pairwise (fun a b => b.count ≤ a.count) ∧
    (∀ c : ℕ,
      (((analyzeKeywords text).topKeywords.map fun e => (e.keyword, e.count)).filter
          (fun kc => kc.2 == c)).Sublist
        ((jsObjectEntriesOrder ((analyzeKeywords text).keywordDensity)).filter
          fun kc => kc.2 == c)) ∧
    (∀ e ∈ (analyzeKeywords text).topKeywords,
      e.density = 100 * (e.count : ℚ) / ((keywordTokens text).length : ℚ)) := by
  have htop : (analyzeKeywords text).topKeywords =
      ((sortByCountDesc (jsObjectEntriesOrder
          (buildFrequencies (keywordTokens text)))).take 10).map fun kc =>
        (⟨kc.1, kc.2, ((kc.2 : ℚ) / (((keywordTokens text).length : ℕ) : ℚ)) * 100⟩ :
          KeywordEntry) := rfl
  have hkd : (analyzeKeywords text).keywordDensity =
      buildFrequencies (keywordTokens text) := rfl
  refine ⟨?_, ?_, ?_, ?_⟩
  · rw [htop, List.length_map, List.length_take]
    exact min_le_left 10 _
  · rw [htop, List.pairwise_map]
    exact List.Pairwise.sublist (List.take_sublist 10 _)
      (pairwise_sortByCountDesc (jsObjectEntriesOrder (buildFrequencies (keywordTokens text))))
  · intro c
    rw [htop, hkd, List.map_map]
    have hmm : ((fun e : KeywordEntry => (e.keyword, e.count)) ∘ fun kc : String × ℕ =>
        (⟨kc.1, kc.2, ((kc.2 : ℚ) / (((keywordTokens text).length : ℕ) : ℚ)) * 100⟩ :
          KeywordEntry)) = id := by
      funext kc
      rfl
    rw [hmm, List.map_id]
    have h1 := List.Sublist.filter (fun kc : String × ℕ => kc.2 == c)
      (List.take_sublist 10 (sortByCountDesc (jsObjectEntriesOrder
        (buildFrequencies (keywordTokens text)))))
    rw [filter_sortByCountDesc] at h1
    exact h1
  · intro e he
    rw [htop] at he
    obtain ⟨kc, _, rfl⟩ := List.mem_map.mp he
    show ((kc.2 : ℚ) / (((keywordTokens text).length : ℕ) : ℚ)) * 100 =
      100 * (kc.2 : ℚ) / ((keywordTokens text).length : ℚ)
    ring

/-- The facts `analyzeSEO` (lines 252–379) reads from the parsed document:
the title text, the `meta[name="description"]` content when the attribute
is present, the levels of all `h1`–`h6` elements in document order, the
`alt` attribute of every `img` (`""` for an absent or empty attribute, both
falsy in JS), the `href` of every `a` (`""` likewise), and the boolean meta
and mobile conditions of lines 337–360. -/
structure PageFacts where
  title : String
  description : Option String
  headings : List ℕ
  imageAlts : List String
  linkHrefs : List String
  hasRequiredMeta : Bool
  hasViewport : Bool
  hasMobileOptimization : Bool

/-- The ten check scores of `analyzeSEO` (line 253–264), in declaration
order. -/
structure SEOChecks where
  title : ℚ
  description : ℚ
  headings : ℚ
  images : ℚ
  links : ℚ
  meta : ℚ
  performance : ℚ
  readability : ℚ
  keywords : ℚ
  mobile : ℚ
deriving DecidableEq

/-- Return value of `analyzeSEO`: the rounded overall score and the ten
checks (recommendation strings are not modelled). -/
structure SEOAnalysis where
  score : ℤ
  checks : SEOChecks
deriving DecidableEq

/-- Title check, lines 269–277. -/
def titleCheckScore (f : PageFacts) : ℚ :=
  if 30 ≤ f.title.length ∧ f.title.length ≤ 60 then 100 else 50

/-- Description check, lines 280–288; `f.description.getD ""` collapses an
absent attribute and the empty string, the two falsy cases of the JS
condition `description && ...`. -/
def descriptionCheckScore (f : PageFacts) : ℚ :=
  if f.description.getD "" ≠ "" ∧ 120 ≤ (f.description.getD "").length ∧
      (f.description.getD "").length ≤ 160
  then 100 else 50

/-- The `every` callback of lines 292–297: each element of the list may
exceed its predecessor by at most 1. -/
def properHeadingChain : List ℕ → Bool
  | [] => true
  | [_] => true
  | a :: b :: rest => decide (b ≤ a + 1) && properHeadingChain (b :: rest)

/-- Headings check, lines 291–306: `$('h1').length` is the number of
level-1 headings, and the `every` of lines 292–297 runs over
`$('h2, h3, h4, h5, h6')`, the sub-list of headings of level 2–6. -/
def headingsCheckScore (f : PageFacts) : ℚ :=
  if (f.headings.filter fun h => h == 1).length = 1 ∧
      properHeadingChain (f.headings.filter fun h => decide (2 ≤ h) && decide (h ≤ 6)) = true
  then 100 else 60

/-- Images check, lines 309–317. -/
def imagesCheckScore (f : PageFacts) : ℚ :=
  if 0 < f.imageAlts.length then
    (((f.imageAlts.filter fun a => a != "").length : ℚ) / (f.imageAlts.length : ℚ)) * 100
  else 100

/-- Links check, lines 320–334: a link is internal when its `href`
attribute is truthy and does not start with `http`; the rest are external. -/
def linksCheckScore (f : PageFacts) : ℚ :=
  if 0 < (f.linkHrefs.filter fun h => h != "" && !(jsStartsWith h "http")).length ∧
      0 < f.linkHrefs.length -
        (f.linkHrefs.filter fun h => h != "" && !(jsStartsWith h "http")).length
  then 100 else 70

/-- Meta check, lines 337–355. -/
def metaCheckScore (f : PageFacts) : ℚ := if f.hasRequiredMeta then 100 else 70

/-- Mobile check, lines 358–369. -/
def mobileCheckScore (f : PageFacts) : ℚ :=
  if f.hasViewport && f.hasMobileOptimization then 100 else 60

/-- `analyzeSEO`, lines 252–379.  The `performance`, `readability` and
`keywords` checks are initialised to score 0 on line 260–262 and are never
assigned afterwards; the overall score is the rounded mean of the ten
check scores (line 372–375). -/
def analyzeSEO (f : PageFacts) : SEOAnalysis :=
  let checks : SEOChecks :=
    ⟨titleCheckScore f, descriptionCheckScore f, headingsCheckScore f, imagesCheckScore f,
      linksCheckScore f, metaCheckScore f, 0, 0, 0, mobileCheckScore f⟩
  let totalScore : ℚ :=
    (checks.title + checks.description + checks.headings + checks.images + checks.links +
      checks.meta + checks.performance + checks.readability + checks.keywords +
      checks.mobile) / 10
  ⟨jsRound totalScore, checks⟩

/-- A document containing only headings, for concrete check inputs. -/
def factsWithHeadings (hs : List ℕ) : PageFacts := ⟨"", none, hs, [], [], false, false, false⟩

/-- The performance rule stated by the specification for check 7, written
from the spec words: `clamp(100 − loadTimeMs/1000, 0, 100)`. -/
def specPerformanceScore (loadTimeMs : ℚ) : ℚ := max 0 (min 100 (100 - loadTimeMs / 1000))

lemma properHeadingChain_iff : ∀ l : List ℕ,
    properHeadingChain l = true ↔ List.Chain' (fun a b => b ≤ a + 1) l
  | [] => by simp [properHeadingChain]
  | [a] => by simp [properHeadingChain]
  | a :: b :: rest => by
    rw [properHeadingChain, Bool.and_eq_true, decide_eq_true_iff,
      properHeadingChain_iff (b :: rest), List.chain'_cons]

/-- C1 counterexample: the heading sequence `[h1, h3]` violates the
all-headings "+1 at a time" rule (the spec predicts score 60), yet the
check scores 100, because the `every` of lines 292–297 only ranges over
`h2`–`h6` and never compares `h1` with its successor. -/
theorem seo_headings_counterexample :
    (analyzeSEO (factsWithHeadings [1, 3])).checks.headings = 100 ∧
    properHeadingChain [1, 3] = false ∧ ((100 : ℚ) ≠ 60) := by
  refine ⟨rfl, by decide, by norm_num⟩

/-- C1 amended — for a document whose heading levels all lie in `[1, 6]`,
the headings check scores 100 exactly when there is exactly one `h1` and
every pair of consecutive headings among `h2`–`h6` (the `h1` elements are
excluded from the sequence) increases the level by at most 1; otherwise it
scores 60.  In particular `[h1, h3]` scores 100, not 60. -/
theorem seo_headings_amended (f : PageFacts)
    (hvalid : ∀ h ∈ f.headings, 1 ≤ h ∧ h ≤ 6) :
    ((analyzeSEO f).checks.headings = 100 ↔
      (f.headings.count 1 = 1 ∧
        List.Chain' (fun a b => b ≤ a + 1) (f.headings.filter fun h => decide (2 ≤ h)))) ∧
    ((analyzeSEO f).checks.headings = 100 ∨ (analyzeSEO f).checks.headings = 60) := by
  have heq : (analyzeSEO f).checks.headings = headingsCheckScore f := rfl
  have hfilt : (f.headings.filter fun h => decide (2 ≤ h) && decide (h ≤ 6)) =
      (f.headings.filter fun h => decide (2 ≤ h)) :=
    List.filter_congr fun h hh => by simp [(hvalid h hh).2]
  have hcount : (f.headings.filter fun h => h == 1).length = f.headings.count 1 :=
    (List.countP_eq_length_filter _ _).symm
  have hc : ((f.headings.filter fun h => h == 1).length = 1 ∧
      properHeadingChain (f.headings.filter fun h => decide (2 ≤ h)) = true) ↔
      (f.headings.count 1 = 1 ∧
        List.Chain' (fun a b => b ≤ a + 1) (f.headings.filter fun h => decide (2 ≤ h))) := by
    rw [hcount, properHeadingChain_iff]
  rw [heq, headingsCheckScore, hfilt]
  constructor
  · split_ifs with hcond
    · exact iff_of_true rfl (hc.mp hcond)
    · exact iff_of_false (by norm_num) fun hr => hcond (hc.mpr hr)
  · split_ifs with hcond
    · exact Or.inl rfl
    · exact Or.inr rfl

/-- C1 amended witness: the amended rule applied at the heading sequence
`[h1, h2, h3]`. -/
theorem seo_headings_amended_witness :
    (∀ h ∈ (factsWithHeadings [1, 2, 3]).headings, 1 ≤ h ∧ h ≤ 6) ∧
    (((analyzeSEO (factsWithHeadings [1, 2, 3])).checks.headings = 100 ↔
      ((factsWithHeadings [1, 2, 3]).headings.count 1 = 1 ∧
        List.Chain' (fun a b => b ≤ a + 1)
          ((factsWithHeadings [1, 2, 3]).headings.filter fun h => decide (2 ≤ h)))) ∧
      ((analyzeSEO (factsWithHeadings [1, 2, 3])).checks.headings = 100 ∨
        (analyzeSEO (factsWithHeadings [1, 2, 3])).checks.headings = 60)) :=
  ⟨by decide, seo_headings_amended (factsWithHeadings [1, 2, 3]) (by decide)⟩

/-- C2 counterexample: with a zero load time the spec formula
`clamp(100 − loadTime/1000, 0, 100)` gives 100, but the performance check
of the code scores 0 — it is initialised to 0 on line 260 and never
assigned. -/
theorem seo_performance_counterexample :
    (analyzeSEO (factsWithHeadings [])).checks.performance = 0 ∧
    specPerformanceScore 0 = 100 ∧ (0 : ℚ) ≠ 100 := by
  refine ⟨rfl, ?_, by norm_num⟩
  rw [specPerformanceScore]
  norm_num

/-- C2 amended — the performance check scores 0 for every analyzed
document, irrespective of the measured load time. -/
theorem seo_performance_always_zero (f : PageFacts) :
    (analyzeSEO f).checks.performance = 0 := rfl

/-- C5 — the performance, readability and keywords checks always score 0,
so the overall SEO score, the rounded unweighted mean of the ten checks,
never exceeds 70. -/
theorem seo_dead_checks_score_bound (f : PageFacts) :
    (analyzeSEO f).checks.performance = 0 ∧ (analyzeSEO f).checks.readability = 0 ∧
    (analyzeSEO f).checks.keywords = 0 ∧ (analyzeSEO f).score ≤ 70 := by
  refine ⟨rfl, rfl, rfl, ?_⟩
  have hscore : (analyzeSEO f).score = jsRound ((titleCheckScore f + descriptionCheckScore f +
      headingsCheckScore f + imagesCheckScore f + linksCheckScore f + metaCheckScore f +
      0 + 0 + 0 + mobileCheckScore f) / 10) := rfl
  have h1 : titleCheckScore f ≤ 100 := by
    rw [titleCheckScore]
    split_ifs <;> norm_num
  have h2 : descriptionCheckScore f ≤ 100 := by
    rw [descriptionCheckScore]
    split_ifs <;> norm_num
  have h3 : headingsCheckScore f ≤ 100 := by
    rw [headingsCheckScore]
    split_ifs <;> norm_num
  have h4 : imagesCheckScore f ≤ 100 := by
    rw [imagesCheckScore]
    split_ifs with hpos
    · have hle : ((f.imageAlts.filter fun a => a != "").length : ℚ) ≤
          (f.imageAlts.length : ℚ) := by
        exact_mod_cast List.length_filter_le _ _
      have hpos' : (0 : ℚ) < (f.imageAlts.length : ℚ) := by exact_mod_cast hpos
      have hdiv : ((f.imageAlts.filter fun a => a != "").length : ℚ) /
          (f.imageAlts.length : ℚ) ≤ 1 := (div_le_one hpos').mpr hle
      linarith
    · norm_num
  have h5 : linksCheckScore f ≤ 100 := by
    rw [linksCheckScore]
    split_ifs <;> norm_num
  have h6 : metaCheckScore f ≤ 100 := by
    rw [metaCheckScore]
    split_ifs <;> norm_num
  have h7 : mobileCheckScore f ≤ 100 := by
    rw [mobileCheckScore]
    split_ifs <;> norm_num
  rw [hscore, jsRound]
  have hlt : (titleCheckScore f + descriptionCheckScore f + headingsCheckScore f +
      imagesCheckScore f + linksCheckScore f + metaCheckScore f + 0 + 0 + 0 +
      mobileCheckScore f) / 10 + 1 / 2 < ((71 : ℤ) : ℚ) := by
    push_cast
    linarith
  have hfl := Int.floor_lt.mpr hlt
  omega

/-- Outcome of the `supabase.from('scraped_pages').insert` call inside
`POST` (lines 460–480): the insert resolves without error, resolves with a
non-null `error` object, or throws. -/
inductive InsertOutcome where
  | ok : InsertOutcome
  | rejected : InsertOutcome
  | threw : InsertOutcome
deriving DecidableEq

/-- The JSON body of a successful scrape response (lines 483–498). -/
structure ScrapeResponse (α : Type) where
  success : Bool
  data : α
  savedToDatabase : Bool
deriving DecidableEq

/-- The persistence tail of `POST` (lines 457–498): when a Supabase client
was configured the insert is attempted, a returned error object is only
logged (line 476) and a thrown error is only caught and logged (line 479);
the response is then built with the analysis payload unchanged and
`savedToDatabase: !!supabase` (line 497).  The result pairs the response
with the `console.error` log lines. -/
def persistAndRespond {α : Type} (supabaseConfigured : Bool) (outcome : InsertOutcome)
    (payload : α) : ScrapeResponse α × List String :=
  let logs :=
    if supabaseConfigured then
      match outcome with
      | InsertOutcome.ok => []
      | InsertOutcome.rejected => ["Supabase error:"]
      | InsertOutcome.threw => ["Failed to save to Supabase:"]
    else []
  (⟨true, payload, supabaseConfigured⟩, logs)

/-- C3 counterexample: with a configured backend and a rejected insert the
response still reports `savedToDatabase: true`, not `false` — the flag
records only that a client was configured. -/
theorem savedToDatabase_counterexample :
    (persistAndRespond true InsertOutcome.rejected (0 : ℕ)).1.savedToDatabase = true ∧
    (persistAndRespond true InsertOutcome.rejected (0 : ℕ)).1.data = 0 ∧
    true ≠ false :=
  ⟨rfl, rfl, by decide⟩

/-- C3 amended — the response is independent of the insert outcome: a
rejected or throwing insert leaves the analysis payload and the success
flag unchanged, and `savedToDatabase` equals whether the backend was
configured (so it stays `true` when a configured insert fails; it is
`false` only when no backend is configured). -/
theorem persistAndRespond_amended {α : Type} (supabaseConfigured : Bool)
    (o₁ o₂ : InsertOutcome) (payload : α) :
    (persistAndRespond supabaseConfigured o₁ payload).1 =
      (persistAndRespond supabaseConfigured o₂ payload).1 ∧
    (persistAndRespond supabaseConfigured o₁ payload).1.data = payload ∧
    (persistAndRespond supabaseConfigured o₁ payload).1.success = true ∧
    (persistAndRespond supabaseConfigured o₁ payload).1.savedToDatabase = supabaseConfigured :=
  ⟨rfl, rfl, rfl, rfl⟩

end WebScraper
